import Mathlib

set_option maxRecDepth 100000

deriving instance DecidableEq for Except

/-
Verification of the monty interpreter core against its specification.
The definitions below are shallow embeddings of the Rust sources:
  src/src/heap.rs, src/src/run.rs        -> namespace MontySrc
  src/crates/monty/src/types/tuple.rs,
  src/crates/monty/src/position.rs,
  src/crates/monty/tests/bug_reproductions.rs
                                          -> namespace MontyCrate
Rust `Vec<T>` is modelled as `List T`, `usize`/`i64` as `Nat`/`Int`
(no operation below can overflow an i64 on the inputs considered),
`Result<T, E>` as `Except E T`, and `Option<T>` as `Option T`.
-/

namespace MontySrc

/-- Unique identifier for objects stored inside the heap arena
(src/src/heap.rs, `pub type ObjectId = usize`). -/
abbrev ObjectId := Nat

/-- Errors surfaced when interacting with the heap
(src/src/heap.rs, `enum HeapError`). -/
inductive HeapError where
  | invalidId
deriving DecidableEq

/-- Exception kinds.  `exceptions.rs` is not part of the sampled sources; the
variants are taken from their use sites in src/src/run.rs (`ExcType::TypeError`,
`ExcType::NameError`) and the spec's exception list (section 7). -/
inductive ExcType where
  | typeError
  | nameError
  | valueError
  | memoryError
  | zeroDivisionError
deriving DecidableEq

/-- Exception value: kind plus message, from `Exception::new(msg, exc_type)` in
src/src/run.rs.  The attached stack frame (`with_frame`, source position and
function name) is elided: no claim depends on traceback payload. -/
structure Exc where
  ty : ExcType
  msg : String
deriving DecidableEq

/-- Runtime object.  `object.rs` is not part of the sampled sources; the
variants are taken from their use sites in src/src/run.rs (`Object::Int`,
`Object::Range`, `Object::Exc`), src/src/heap.rs tests (`Object::Int`) and the
spec's value model (section 3).  Note there is no `Ref` variant yet: the
comment in src/src/heap.rs `enqueue_children` states "keep placeholders so the
match arms are ready once Object::Ref exists". -/
inductive Object where
  | none
  | bool (b : Bool)
  | int (i : Int)
  | str (s : String)
  | range (size : Int)
  | exc (e : Exc)
deriving DecidableEq

/-- HeapData captures every runtime object that must live in the arena
(src/src/heap.rs, `enum HeapData`). -/
inductive HeapData where
  | str (s : String)
  | bytes (b : List Nat)
  | list (items : List Object)
  | tuple (items : List Object)
  | exception (e : Exc)
deriving DecidableEq

/-- A single entry inside the heap arena, storing refcount and payload
(src/src/heap.rs, `struct HeapObject`). -/
structure HeapObject where
  refcount : Nat
  data : HeapData
deriving DecidableEq

/-- Reference-counted arena that backs all heap-only runtime objects
(src/src/heap.rs, `struct Heap`).  A slot is either occupied (`some`) or
tombstoned (`none`). -/
structure Heap where
  objects : List (Option HeapObject)
deriving DecidableEq

/-- Pushes any child object IDs referenced by `data` onto the provided stack
(src/src/heap.rs, `fn enqueue_children`).  In this source every match arm
pushes nothing: `Object` has no `Ref` variant yet, so list/tuple/exception
payloads contain no child heap IDs ("Non-heap references will be added in
later phases"). -/
def enqueue_children (data : HeapData) : List ObjectId :=
  match data with
  | .list _items => []
  | .tuple _items => []
  | .exception _exc => []
  | .str _ => []
  | .bytes _ => []

theorem enqueue_children_eq_nil (data : HeapData) : enqueue_children data = [] := by
  cases data <;> rfl

/-- The worklist loop of `Heap::dec_ref` (src/src/heap.rs lines 67-87).
The Rust code keeps an explicit `Vec` stack; the list head here is the top of
that stack (Rust pushes and pops at the `Vec`'s end).  A popped id that is out
of bounds or tombstoned is skipped; a refcount above one is decremented; a
refcount that hits zero tombstones the slot (`slot.take()`) and pushes the
freed object's children. -/
def decRefLoop (objects : List (Option HeapObject)) (stack : List ObjectId) :
    List (Option HeapObject) :=
  match stack with
  | [] => objects
  | current :: rest =>
    match objects[current]? with
    | Option.none => decRefLoop objects rest
    | some Option.none => decRefLoop objects rest
    | some (some entry) =>
      if entry.refcount > 1 then
        decRefLoop (objects.set current (some ⟨entry.refcount - 1, entry.data⟩)) rest
      else
        decRefLoop (objects.set current Option.none)
          ((enqueue_children entry.data).reverse ++ rest)
termination_by stack.length
decreasing_by
  all_goals simp [enqueue_children_eq_nil]

/-- Creates an empty heap (src/src/heap.rs, `Heap::new`). -/
def Heap.new : Heap := ⟨[]⟩

/-- Allocates a new heap object, returning the fresh identifier
(src/src/heap.rs, `Heap::allocate`): the id is the current arena length and
the object is appended with refcount 1. -/
def Heap.allocate (h : Heap) (data : HeapData) : ObjectId × Heap :=
  (h.objects.length, ⟨h.objects ++ [some ⟨1, data⟩]⟩)

/-- Increments the reference count for an existing heap object
(src/src/heap.rs, `Heap::inc_ref`); out-of-bounds or tombstoned ids are
ignored. -/
def Heap.inc_ref (h : Heap) (id : ObjectId) : Heap :=
  match h.objects[id]? with
  | some (some object) => ⟨h.objects.set id (some ⟨object.refcount + 1, object.data⟩)⟩
  | _ => h

/-- Decrements the reference count and frees the object (plus children) once
it hits zero (src/src/heap.rs, `Heap::dec_ref`). -/
def Heap.dec_ref (h : Heap) (id : ObjectId) : Heap :=
  ⟨decRefLoop h.objects [id]⟩

/-- Returns the heap data stored at the given ID (src/src/heap.rs,
`Heap::get`); tombstoned or out-of-bounds ids give `InvalidId`. -/
def Heap.get (h : Heap) (id : ObjectId) : Except HeapError HeapData :=
  match h.objects[id]? with
  | some (some object) => .ok object.data
  | _ => .error .invalidId

/-- Removes all objects and resets the ID counter, used between executor runs
(src/src/heap.rs, `Heap::clear`). -/
def Heap.clear (_h : Heap) : Heap := ⟨[]⟩

/-- A heap operation available to running code within a single run
(`clear` is excluded: it is only called between runs, src/src/heap.rs). -/
inductive HeapOp where
  | alloc (data : HeapData)
  | incRef (id : ObjectId)
  | decRef (id : ObjectId)

/-- Applies one heap operation, discarding any returned id. -/
def Heap.applyOp (h : Heap) : HeapOp → Heap
  | .alloc data => (h.allocate data).2
  | .incRef id => h.inc_ref id
  | .decRef id => h.dec_ref id

/-- Applies a sequence of heap operations in order. -/
def Heap.applyOps (h : Heap) (ops : List HeapOp) : Heap :=
  ops.foldl Heap.applyOp h

theorem decRefLoop_length (objects : List (Option HeapObject)) (stack : List ObjectId) :
    (decRefLoop objects stack).length = objects.length := by
  induction objects, stack using decRefLoop.induct with
  | case1 objects => rw [decRefLoop]
  | case2 objects current rest hnone ih =>
      rw [decRefLoop, hnone]
      exact ih
  | case3 objects current rest hsome ih =>
      rw [decRefLoop, hsome]
      exact ih
  | case4 objects current rest entry hsome hgt ih =>
      rw [decRefLoop, hsome]
      simp only [hgt, if_true]
      simpa using ih
  | case5 objects current rest entry hsome hgt ih =>
      rw [decRefLoop, hsome]
      simp only [hgt, if_false]
      simpa using ih

theorem applyOp_length_mono (h : Heap) (op : HeapOp) :
    h.objects.length ≤ (h.applyOp op).objects.length := by
  cases op with
  | alloc data => simp [Heap.applyOp, Heap.allocate]
  | incRef id =>
      simp only [Heap.applyOp, Heap.inc_ref]
      cases hslot : h.objects[id]? with
      | none => simp
      | some slot => cases slot <;> simp
  | decRef id =>
      simp [Heap.applyOp, Heap.dec_ref, decRefLoop_length]

theorem applyOps_length_mono (ops : List HeapOp) (h : Heap) :
    h.objects.length ≤ (h.applyOps ops).objects.length := by
  induction ops generalizing h with
  | nil => simp [Heap.applyOps]
  | cons op rest ih =>
      calc h.objects.length ≤ (h.applyOp op).objects.length := applyOp_length_mono h op
        _ ≤ ((h.applyOp op).applyOps rest).objects.length := ih (h.applyOp op)
        _ = (h.applyOps (op :: rest)).objects.length := by simp [Heap.applyOps]

theorem getElem?_isLt {α : Type} {l : List α} {i : Nat} {a : α}
    (h : l[i]? = some a) : i < l.length := by
  by_contra hge
  rw [List.getElem?_eq_none (Nat.le_of_not_lt hge)] at h
  exact Option.noConfusion h

theorem decRefLoop_nil (objects : List (Option HeapObject)) :
    decRefLoop objects [] = objects := by
  rw [decRefLoop.eq_def]

/-- C6: when `dec_ref` drives a slot's refcount to zero the slot is tombstoned
— a subsequent `get` on the id returns `InvalidId` — and the final heap is the
one obtained by continuing the same explicit work stack on the freed object's
children as pushed by `enqueue_children` (src/src/heap.rs lines 67-87 and
117-130); the walk is a loop over that stack, never host recursion. -/
theorem dec_ref_zero_tombstones (h : Heap) (id : ObjectId) (o : HeapObject)
    (hslot : h.objects[id]? = some (some o)) (hrc : o.refcount = 1) :
    (h.dec_ref id).get id = .error .invalidId ∧
    (h.dec_ref id).objects =
      decRefLoop (h.objects.set id Option.none) ((enqueue_children o.data).reverse) := by
  have hlt : id < h.objects.length := getElem?_isLt hslot
  have hstep : (h.dec_ref id).objects =
      decRefLoop (h.objects.set id Option.none) ((enqueue_children o.data).reverse) := by
    show decRefLoop h.objects [id] = _
    rw [decRefLoop.eq_def]
    simp [hslot, hrc]
  refine ⟨?_, hstep⟩
  have hdone : (h.dec_ref id).objects = h.objects.set id Option.none := by
    rw [hstep, enqueue_children_eq_nil, List.reverse_nil, decRefLoop_nil]
  show Heap.get _ id = _
  rw [Heap.get, hdone]
  rw [List.getElem?_set_eq_of_lt _ (by simpa using hlt)]

/-- Closed instance of `dec_ref_zero_tombstones`: a heap holding one string at
refcount 1; decrementing tombstones the slot. -/
theorem dec_ref_zero_tombstones_witness :
    ((⟨[some ⟨1, .str "hello"⟩]⟩ : Heap).dec_ref 0).get 0 = .error .invalidId ∧
    ((⟨[some ⟨1, .str "hello"⟩]⟩ : Heap).dec_ref 0).objects =
      decRefLoop ([some ⟨1, HeapData.str "hello"⟩].set 0 Option.none)
        ((enqueue_children (.str "hello")).reverse) :=
  dec_ref_zero_tombstones ⟨[some ⟨1, .str "hello"⟩]⟩ 0 ⟨1, .str "hello"⟩ rfl rfl

/-- C7: `allocate` assigns ids monotonically — an allocation performed after
any further sequence of in-run heap operations returns a strictly greater id
than an earlier one — the later allocation leaves the earlier id's slot
untouched (ids are never reassigned, even to tombstoned slots, because
`allocate` only ever appends, src/src/heap.rs lines 49-55), and only `clear`
(run between executor runs, lines 109-112) resets the id counter to 0. -/
theorem allocate_monotonic (h : Heap) (ops : List HeapOp) (d d' : HeapData) :
    (h.allocate d).1 < (((h.allocate d).2.applyOps ops).allocate d').1 ∧
    (((h.allocate d).2.applyOps ops).allocate d').2.objects[(h.allocate d).1]? =
      ((h.allocate d).2.applyOps ops).objects[(h.allocate d).1]? ∧
    ((Heap.clear h).allocate d).1 = 0 := by
  have hlen : (h.allocate d).2.objects.length = h.objects.length + 1 := by
    simp [Heap.allocate]
  have hmono := applyOps_length_mono ops (h.allocate d).2
  have hlt : h.objects.length < ((h.allocate d).2.applyOps ops).objects.length := by
    omega
  refine ⟨hlt, ?_, rfl⟩
  show (((h.allocate d).2.applyOps ops).objects ++ [some ⟨1, d'⟩])[h.objects.length]? = _
  rw [List.getElem?_append_left hlt]
  rfl

/-- Internal (non-user-visible) error kinds, from their use sites in
src/src/run.rs (`InternalRunError::Error`, `InternalRunError::TodoError`). -/
inductive InternalRunError where
  | error
  | todoError
deriving DecidableEq

/-- Run-time error: a raised exception or an internal error
(src/src/run.rs `RunError`, from its use in `set_name` and the
`exc_err!` / `internal_err!` macro invocations). -/
inductive RunError where
  | exc (e : Exc)
  | internal (kind : InternalRunError) (msg : String)
deriving DecidableEq

/-- Binary operators.  `operators.rs` is not part of the sampled sources; the
variants are `Operator::Add` (matched in src/src/run.rs `op_assign`) plus the
operators of the spec's dispatch table (section 4.3) needed by the sampled
programs: `%` and `==`. -/
inductive Operator where
  | add
  | modulo
  | eqCmp
deriving DecidableEq

/-- Identifier resolved at compile time to a dense namespace index
(src/src/run.rs `Identifier { id, name, .. }`; the source position field is
elided as no claim depends on it). -/
structure Identifier where
  id : Nat
  name : String
deriving DecidableEq

/-- Expression node.  Modelled from the spec: `expressions.rs`/`evaluate.rs`
are not under src/.  Spec section 3 ("Compilation resolves names to dense
integer indices into a per-frame namespace vector") gives `name`; section 4.3
gives the operator expressions; `range` and `len` are the built-ins the
sampled programs call; `constExc` is an expression producing an exception
object (as built by `ValueError('e')`). -/
inductive Expr where
  | constInt (i : Int)
  | constStr (s : String)
  | constExc (e : Exc)
  | name (id : Nat)
  | binOp (op : Operator) (lhs rhs : Expr)
  | callRange (arg : Expr)
  | callLen (arg : Expr)
deriving DecidableEq

/-- Binary operator dispatch.  Modelled from the spec, section 4.3: `+` is
numeric addition or sequence concatenation, `%` is numeric (Python sign
convention, matching `Int.emod` for the non-negative operands that occur
here), `==` is structural equality; unsupported combinations are TypeError. -/
def binOpEval (op : Operator) (lhs rhs : Object) : Except RunError Object :=
  match op, lhs, rhs with
  | .add, .int a, .int b => .ok (.int (a + b))
  | .add, .str a, .str b => .ok (.str (a ++ b))
  | .modulo, .int a, .int b =>
      if b = 0 then .error (.exc ⟨.zeroDivisionError, "integer modulo by zero"⟩)
      else .ok (.int (a % b))
  | .eqCmp, a, b => .ok (.bool (a = b))
  | _, _, _ => .error (.exc ⟨.typeError, "unsupported operand type(s)"⟩)

/-- Expression evaluation against a frame's namespace vector.  Modelled from
the spec (`evaluate.rs` is not under src/): sub-evaluation is left-to-right
(section 5); `range(n)` yields the `Range` object consumed by `for_loop` in
src/src/run.rs; `len` on a string returns its length (section 4.2). -/
def evaluate (ns : List Object) : Expr → Except RunError Object
  | .constInt i => .ok (.int i)
  | .constStr s => .ok (.str s)
  | .constExc e => .ok (.exc e)
  | .name id => .ok (ns.getD id .none)
  | .binOp op lhs rhs => do
      let lv ← evaluate ns lhs
      let rv ← evaluate ns rhs
      binOpEval op lv rv
  | .callRange arg => do
      let v ← evaluate ns arg
      match v with
      | .int n => .ok (.range n)
      | _ => .error (.exc ⟨.typeError, "range() argument must be an integer"⟩)
  | .callLen arg => do
      let v ← evaluate ns arg
      match v with
      | .str s => .ok (.int s.length)
      | _ => .error (.exc ⟨.typeError, "object has no len()"⟩)

/-- Truthiness of an object, modelled from the spec, section 4.2 (`bool()`);
used by `evaluate_bool` in src/src/run.rs. -/
def Object.py_bool : Object → Bool
  | .none => false
  | .bool b => b
  | .int i => i ≠ 0
  | .str s => s ≠ ""
  | .range size => size ≠ 0
  | .exc _ => true

/-- `evaluate_bool` (src/src/run.rs): evaluate, then coerce to a boolean. -/
def evaluate_bool (ns : List Object) (e : Expr) : Except RunError Bool := do
  let v ← evaluate ns e
  .ok v.py_bool

/-- In-place add used by `op_assign` (src/src/run.rs line 107,
`target_object.add_mut(right_object)`).  `object.rs` is not under src/; the
semantics are modelled from the spec's `+` row (section 4.3).  On an
unsupported combination the right operand is handed back (`Err(right)`),
mirroring the Rust ownership-returning signature. -/
def Object.add_mut (target right : Object) : Except Object Object :=
  match target, right with
  | .int a, .int b => .ok (.int (a + b))
  | .str a, .str b => .ok (.str (a ++ b))
  | _, r => .error r

/-- Statement node, from the `Node` match arms in src/src/run.rs
`execute_node` (lines 37-61).  `expressions.rs` itself is not under src/, but
every variant and its payload appears there.  Note `raiseNode` carries only an
optional exception expression: the node has no slot for a `from` cause. -/
inductive Node where
  | pass
  | expr (e : Expr)
  | ret (e : Expr)
  | retNone
  | raiseNode (e : Option Expr)
  | assign (target : Identifier) (object : Expr)
  | opAssign (target : Identifier) (op : Operator) (object : Expr)
  | forLoop (target : Identifier) (iter : Expr) (body : List Node) (or_else : List Node)
  | ifNode (test : Expr) (body : List Node) (or_else : List Node)

/-- Frame exit, from the `Exit` uses in src/src/run.rs (`Exit::Return`,
`Exit::ReturnNone`). -/
inductive Exit where
  | ret (v : Object)
  | retNone
deriving DecidableEq

/-- `RunFrame::raise` (src/src/run.rs lines 84-95): evaluate the exception
expression; a non-exception object is a TypeError; a plain `raise` is an
internal TodoError.  Frame attachment (`with_frame`) is elided.  Every path
returns an error: raising propagates as `Err`. -/
def raiseRun (ns : List Object) (op_exc_expr : Option Expr) : Except RunError Unit :=
  match op_exc_expr with
  | some exc_expr =>
      match evaluate ns exc_expr with
      | .error e => .error e
      | .ok object =>
          match object with
          | .exc e => .error (.exc e)
          | _ => .error (.exc ⟨.typeError, "exceptions must derive from BaseException"⟩)
  | Option.none => .error (.internal .todoError "plain raise not yet supported")

/-- `RunFrame::op_assign` (src/src/run.rs lines 102-122), after the right
operand has been evaluated: a missing namespace slot is a NameError; only
`Operator::Add` is implemented (`add_mut`); a failing `add_mut` is a
TypeError. -/
def opAssignRun (ns : List Object) (target : Identifier) (op : Operator)
    (right_object : Object) : Except RunError (List Object) :=
  match ns[target.id]? with
  | some target_object =>
      match op with
      | .add =>
          match target_object.add_mut right_object with
          | .ok updated => .ok (ns.set target.id updated)
          | .error _right => .error (.exc ⟨.typeError, "unsupported operand type(s)"⟩)
      | _ => .error (.internal .todoError "Assign operator not yet implemented")
  | Option.none => .error (.exc ⟨.nameError, target.name⟩)

/-- The iteration values of `for object in 0i64..range_size`
(src/src/run.rs line 136): `0, 1, ..., range_size - 1`, empty when
`range_size <= 0`. -/
def rangeList (range_size : Int) : List Int :=
  (List.range range_size.toNat).map Int.ofNat

mutual

/-- `RunFrame::execute` (src/src/run.rs lines 28-35): run the nodes in order;
the first node producing an `Exit` ends the frame, otherwise the frame ends
with `ReturnNone`.  The `fuel` argument only bounds the recursion depth of
this embedding (the Rust recursion is bounded by the finite node tree and
range sizes); exhaustion is a distinguished internal error never reached in
the theorems below. -/
def executeNodes : Nat → List Object → List Node → Except RunError (List Object × Exit)
  | _, ns, [] => .ok (ns, .retNone)
  | 0, _, _ :: _ => .error (.internal .error "fuel exhausted")
  | fuel + 1, ns, node :: rest => do
      let (ns', leave) ← executeNode fuel ns node
      match leave with
      | some exit => .ok (ns', exit)
      | Option.none => executeNodes fuel ns' rest

/-- `RunFrame::execute_node` (src/src/run.rs lines 37-61): `pass` is an
internal error, expression statements discard their value, `return` exits,
`raise` propagates, assignments update the namespace, and `for`/`if` delegate
to `for_loop`/`if_` (which discard any `Exit` from their bodies, as the Rust
`self.execute(body)?;` statements do). -/
def executeNode : Nat → List Object → Node → Except RunError (List Object × Option Exit)
  | _, _, .pass => .error (.internal .error "Unexpected pass in execution")
  | _, ns, .expr e => do
      let _ ← evaluate ns e
      .ok (ns, Option.none)
  | _, ns, .ret e => do
      let v ← evaluate ns e
      .ok (ns, some (.ret v))
  | _, ns, .retNone => .ok (ns, some .retNone)
  | _, ns, .raiseNode e => do
      let _ ← raiseRun ns e
      .ok (ns, Option.none)
  | _, ns, .assign target object => do
      let v ← evaluate ns object
      .ok (ns.set target.id v, Option.none)
  | _, ns, .opAssign target op object => do
      let right ← evaluate ns object
      let ns' ← opAssignRun ns target op right
      .ok (ns', Option.none)
  | 0, _, .forLoop _ _ _ _ => .error (.internal .error "fuel exhausted")
  | fuel + 1, ns, .forLoop target iter body _or_else => do
      let iv ← evaluate ns iter
      match iv with
      | .range range_size => do
          let ns' ← runForIter fuel ns target body (rangeList range_size)
          .ok (ns', Option.none)
      | _ => .error (.internal .todoError "for iter must be a range")
  | 0, _, .ifNode _ _ _ => .error (.internal .error "fuel exhausted")
  | fuel + 1, ns, .ifNode test body or_else => do
      let b ← evaluate_bool ns test
      if b then do
        let (ns', _exit) ← executeNodes fuel ns body
        .ok (ns', Option.none)
      else do
        let (ns', _exit) ← executeNodes fuel ns or_else
        .ok (ns', Option.none)

/-- The loop body of `RunFrame::for_loop` (src/src/run.rs lines 136-139): for
each value, bind it to the target's namespace slot and execute the body
(discarding the body's `Exit`, as `self.execute(body)?;` does). -/
def runForIter : Nat → List Object → Identifier → List Node → List Int →
    Except RunError (List Object)
  | _, ns, _, _, [] => .ok ns
  | 0, _, _, _, _ :: _ => .error (.internal .error "fuel exhausted")
  | fuel + 1, ns, target, body, i :: rest => do
      let (ns', _exit) ← executeNodes fuel (ns.set target.id (.int i)) body
      runForIter fuel ns' target body rest

end

/-- Executor entry point: a fresh frame whose namespace vector has one
(`None`-initialised) slot per compiled local, running the module's nodes
(src/src/run.rs `RunFrame::new` / `execute`; the surrounding `Executor` is
not under src/ and is modelled from the spec, section 6). -/
def runProgram (fuel : Nat) (ns_size : Nat) (nodes : List Node) : Except RunError Exit :=
  match executeNodes fuel (List.replicate ns_size .none) nodes with
  | .ok (_ns, exit) => .ok exit
  | .error e => .error e

/-- Namespace slot of `v` in the S2 benchmark program. -/
def identV : Identifier := ⟨0, "v"⟩

/-- Namespace slot of `i` in the S2 benchmark program. -/
def identI : Identifier := ⟨1, "i"⟩

/-- The compiled node tree of the S2 benchmark program
(src/benches/main.rs `LOOP_MOD_13_CODE`):
`v = ''` / `for i in range(1_000): if i % 13 == 0: v += 'x'` / `len(v)`.
The compiler is not under src/ and is modelled from the spec (sections 3
and 6): names are resolved to namespace indices (`v` to 0, `i` to 1) and the
final expression statement becomes the run's returned value. -/
def loopMod13Program : List Node :=
  [ .assign identV (.constStr ""),
    .forLoop identI (.callRange (.constInt 1000))
      [ .ifNode (.binOp .eqCmp (.binOp .modulo (.name 1) (.constInt 13)) (.constInt 0))
          [ .opAssign identV .add (.constStr "x") ] [] ] [],
    .ret (.callLen (.name 0)) ]

/-- C9: the S2 program terminates normally with `Return(Int(77))`: the `for`
loop of src/src/run.rs binds the target to 0..999 in order, the `if` body
appends `'x'` exactly for the 77 multiples of 13 below 1000, and the final
expression's value is the run's result (src/benches/main.rs asserts 77). -/
theorem loop_mod_13_returns_77 :
    runProgram 2000 2 loopMod13Program = .ok (.ret (.int 77)) := by decide

/-- C10: a `raise <expr>` whose expression evaluates to a non-exception object
fails with `TypeError: exceptions must derive from BaseException`
(src/src/run.rs lines 84-95) — the value itself is not raised and no path
aborts the host. -/
theorem raise_non_exception_type_error (ns : List Object) (e : Expr) (v : Object)
    (hev : evaluate ns e = .ok v) (hne : ∀ ex : Exc, v ≠ .exc ex) :
    raiseRun ns (some e) =
      .error (.exc ⟨.typeError, "exceptions must derive from BaseException"⟩) := by
  cases v with
  | exc ex => exact absurd rfl (hne ex)
  | none => simp only [raiseRun, hev]
  | bool _ => simp only [raiseRun, hev]
  | int _ => simp only [raiseRun, hev]
  | str _ => simp only [raiseRun, hev]
  | range _ => simp only [raiseRun, hev]

/-- Closed instance of `raise_non_exception_type_error`: `raise 1`. -/
theorem raise_non_exception_type_error_witness :
    raiseRun [] (some (.constInt 1)) =
      .error (.exc ⟨.typeError, "exceptions must derive from BaseException"⟩) :=
  raise_non_exception_type_error [] (.constInt 1) (.int 1) rfl
    (fun _ h => Object.noConfusion h)

/-- Compilation of a `raise` statement.  Modelled from
src/crates/monty/tests/bug_reproductions.rs (bug 4d): the parser
(parse.rs line 348, not under src/) matches
`Stmt::Raise(ast::StmtRaise { exc, .. })`, silently discarding the `cause`
field of `raise X from Y`, and the emitted `Node::Raise` — see `Node` above,
taken from src/src/run.rs — has no slot that could carry a cause. -/
def parseRaise (exc : Option Expr) (_cause : Option Expr) : Node :=
  Node.raiseNode exc

/-- C4 is violated: `raise ValueError('effect') from TypeError('cause')`
compiles to exactly the same node as `raise ValueError('effect')` — the
`from` clause is silently dropped — and the exception that reaches the
handler carries only its own kind and message, no cause. -/
theorem raise_from_drops_cause :
    parseRaise (some (.constExc ⟨.valueError, "effect"⟩))
        (some (.constExc ⟨.typeError, "cause"⟩)) =
      parseRaise (some (.constExc ⟨.valueError, "effect"⟩)) Option.none ∧
    raiseRun [] (some (.constExc ⟨.valueError, "effect"⟩)) =
      .error (.exc ⟨.valueError, "effect"⟩) :=
  ⟨rfl, rfl⟩

end MontySrc

namespace MontyCrate

/-- Tagged runtime value of the monty crate.  Modelled from the spec, section
3 (`value.rs` is not under src/): `None | Bool(b) | Int(i64) | Float(f64) |
Range(i64) | Ref(HeapId)`.  The `Float` variant is omitted: its payload plays
no role in any claim here — like every non-`Int` variant it falls into the
catch-all (TypeError) arm of index dispatch. -/
inductive Value where
  | none
  | bool (b : Bool)
  | int (i : Int)
  | range (size : Int)
  | ref (id : Nat)
deriving DecidableEq

/-- Python-level errors produced by the operations modelled here
(`exception_private.rs` is not under src/; the constructors mirror
`ExcType::type_error_indices`, `ExcType::tuple_index_error` — used in
src/crates/monty/src/types/tuple.rs — and the `MemoryError` asserted in
src/crates/monty/tests/bug_reproductions.rs).  Message strings beyond the
fixed texts are elided. -/
inductive PyErr where
  | typeError (msg : String)
  | indexError (msg : String)
  | memoryError
deriving DecidableEq

/-- Python tuple value stored on the heap
(src/crates/monty/src/types/tuple.rs, `struct Tuple`). -/
structure Tuple where
  items : List Value
  contains_refs : Bool
deriving DecidableEq

/-- `Tuple::new` (src/crates/monty/src/types/tuple.rs lines 53-59):
`contains_refs` is computed once, since tuples are immutable. -/
def Tuple.new (vec : List Value) : Tuple :=
  ⟨vec, vec.any fun v => match v with | .ref _ => true | _ => false⟩

/-- `Tuple::py_getitem` (src/crates/monty/src/types/tuple.rs lines 123-143):
a non-`Int` key is a TypeError; a negative index has the length added once
(Python-style, -1 is last); an index outside `[0, len)` after normalisation
is an IndexError; otherwise the item at the index is returned.  The Rust
`clone_with_heap` additionally increments the refcount of a returned `Ref`;
that heap side effect is not part of this claim and is elided, as is the
dynamic type name interpolated into the TypeError message. -/
def Tuple.py_getitem (t : Tuple) (key : Value) : Except PyErr Value :=
  match key with
  | .int index =>
      let len : Int := (t.items.length : Int)
      let normalized_index := if index < 0 then index + len else index
      if normalized_index < 0 ∨ normalized_index ≥ len then
        .error (.indexError "tuple index out of range")
      else
        .ok (t.items.getD normalized_index.toNat .none)
  | _ => .error (.typeError "tuple indices must be integers or slices")

/-- C5: tuple `getitem` with an integer key `i` returns the element at `i`
for `0 ≤ i < n`, the element at `i + n` for `-n ≤ i < 0`, IndexError outside
`[-n, n)`, and TypeError for every non-integer key
(src/crates/monty/src/types/tuple.rs lines 123-143). -/
theorem tuple_py_getitem_spec (t : Tuple) (i : Int) :
    (0 ≤ i → i < (t.items.length : Int) →
      t.py_getitem (.int i) = .ok (t.items.getD i.toNat .none)) ∧
    (-(t.items.length : Int) ≤ i → i < 0 →
      t.py_getitem (.int i) = .ok (t.items.getD (i + (t.items.length : Int)).toNat .none)) ∧
    (i < -(t.items.length : Int) ∨ (t.items.length : Int) ≤ i →
      t.py_getitem (.int i) = .error (.indexError "tuple index out of range")) ∧
    (∀ key : Value, (∀ j : Int, key ≠ .int j) →
      t.py_getitem key = .error (.typeError "tuple indices must be integers or slices")) := by
  refine ⟨?_, ?_, ?_, ?_⟩
  · intro h0 hlt
    simp only [Tuple.py_getitem]
    rw [if_neg (by omega), if_neg (by omega)]
  · intro hge hneg
    simp only [Tuple.py_getitem]
    rw [if_pos hneg, if_neg (by omega)]
  · intro hout
    simp only [Tuple.py_getitem]
    rcases hout with hlo | hhi
    · have hneg : i < 0 := by omega
      rw [if_pos hneg, if_pos (Or.inl (by omega))]
    · have hnn : ¬ i < 0 := by omega
      rw [if_neg hnn, if_pos (Or.inr (by omega))]
  · intro key hkey
    cases key with
    | int j => exact absurd rfl (hkey j)
    | none => rfl
    | bool _ => rfl
    | range _ => rfl
    | ref _ => rfl

/-- Closed instances of `tuple_py_getitem_spec` on the tuple `(10, 20, 30)`:
`t[1] = 20`, `t[-1] = 30`, `t[3]` is IndexError, `t[True]` is TypeError. -/
theorem tuple_py_getitem_spec_witness :
    (Tuple.new [.int 10, .int 20, .int 30]).py_getitem (.int 1) = .ok (.int 20) ∧
    (Tuple.new [.int 10, .int 20, .int 30]).py_getitem (.int (-1)) = .ok (.int 30) ∧
    (Tuple.new [.int 10, .int 20, .int 30]).py_getitem (.int 3) =
      .error (.indexError "tuple index out of range") ∧
    (Tuple.new [.int 10, .int 20, .int 30]).py_getitem (.bool true) =
      .error (.typeError "tuple indices must be integers or slices") := by
  refine ⟨?_, ?_, ?_, ?_⟩
  · exact (tuple_py_getitem_spec (Tuple.new [.int 10, .int 20, .int 30]) 1).1
      (by decide) (by decide)
  · exact (tuple_py_getitem_spec (Tuple.new [.int 10, .int 20, .int 30]) (-1)).2.1
      (by decide) (by decide)
  · exact (tuple_py_getitem_spec (Tuple.new [.int 10, .int 20, .int 30]) 3).2.2.1
      (by decide)
  · exact (tuple_py_getitem_spec (Tuple.new [.int 10, .int 20, .int 30]) 1).2.2.2
      (.bool true) (fun _ h => Value.noConfusion h)

end MontyCrate

namespace MontyCrate

/-- Clause state discriminating how to resume inside nested control flow
(src/crates/monty/src/position.rs, `enum ClauseState`). -/
inductive ClauseState where
  | ifClause (branch_taken : Bool)
  | forClause (next_index : Nat)
deriving DecidableEq

/-- A position within nested control flow for yield resumption
(src/crates/monty/src/position.rs, `struct Position`). -/
structure Position where
  index : Nat
  clause_state : Option ClauseState
deriving DecidableEq

/-- `Position::default()` (derived `Default` in
src/crates/monty/src/position.rs): index 0, no clause state. -/
def Position.defaultPos : Position := ⟨0, Option.none⟩

/-- Recording position tracker
(src/crates/monty/src/position.rs, `struct PositionTracker`).  The Rust
`Vec` stack pushes and pops at its end; the list head here is that end
(the top). -/
structure PositionTracker where
  stack : List Position
  clause_state : Option ClauseState
  incr : Bool
deriving DecidableEq

/-- `PositionTracker::next` (src/crates/monty/src/position.rs lines 70-72):
pop the top position, or the default when the stack is empty. -/
def PositionTracker.next (t : PositionTracker) : Position × PositionTracker :=
  match t.stack with
  | [] => (Position.defaultPos, { t with stack := [] })
  | p :: rest => (p, { t with stack := rest })

/-- `PositionTracker::record` (src/crates/monty/src/position.rs lines 74-85):
push a position holding the (possibly incremented) index and the taken clause
state. -/
def PositionTracker.record (t : PositionTracker) (index : Nat) : PositionTracker :=
  let index' := if t.incr then index + 1 else index
  { stack := ⟨index', t.clause_state⟩ :: t.stack,
    clause_state := Option.none,
    incr := if t.incr then false else t.incr }

/-- `PositionTracker::set_clause_state`
(src/crates/monty/src/position.rs lines 87-89). -/
def PositionTracker.set_clause_state (t : PositionTracker) (cs : ClauseState) :
    PositionTracker :=
  { t with clause_state := some cs }

/-- The empty tracker: empty stack, no pending clause state, `incr` unset
(derived `Default` in src/crates/monty/src/position.rs). -/
def PositionTracker.empty : PositionTracker := ⟨[], Option.none, false⟩

/-- `record` called once per enclosing statement at suspension, with indices
`i1, ..., ik` in order. -/
def PositionTracker.recordAll (t : PositionTracker) (idxs : List Nat) : PositionTracker :=
  idxs.foldl PositionTracker.record t

/-- `n` successive calls to `next`, collecting the returned positions. -/
def PositionTracker.drain (t : PositionTracker) : Nat → List Position × PositionTracker
  | 0 => ([], t)
  | n + 1 =>
      let (p, t') := t.next
      let (ps, t'') := t'.drain n
      (p :: ps, t'')

theorem record_empty_state (s : List Position) (i : Nat) :
    PositionTracker.record ⟨s, Option.none, false⟩ i =
      ⟨⟨i, Option.none⟩ :: s, Option.none, false⟩ := by
  simp [PositionTracker.record]

theorem recordAll_empty_state (idxs : List Nat) (s : List Position) :
    PositionTracker.recordAll ⟨s, Option.none, false⟩ idxs =
      ⟨(idxs.reverse.map fun i => ⟨i, Option.none⟩) ++ s, Option.none, false⟩ := by
  induction idxs generalizing s with
  | nil => simp [PositionTracker.recordAll]
  | cons i rest ih =>
      show PositionTracker.recordAll
        (PositionTracker.record ⟨s, Option.none, false⟩ i) rest = _
      rw [record_empty_state, ih (⟨i, Option.none⟩ :: s)]
      simp

theorem drain_succ (t : PositionTracker) (n : Nat) :
    t.drain (n + 1) =
      (t.next.1 :: (t.next.2.drain n).1, (t.next.2.drain n).2) := rfl

theorem drain_full (s : List Position) (m : Nat) :
    PositionTracker.drain ⟨s, Option.none, false⟩ (s.length + m) =
      (s ++ List.replicate m Position.defaultPos, PositionTracker.empty) := by
  induction s with
  | nil =>
      simp only [List.length_nil, Nat.zero_add, List.nil_append]
      induction m with
      | zero => rfl
      | succ k ihm =>
          rw [drain_succ]
          have hnext : PositionTracker.next ⟨[], Option.none, false⟩ =
              (Position.defaultPos, ⟨[], Option.none, false⟩) := rfl
          rw [hnext]
          simp only
          rw [ihm]
          simp [List.replicate_succ, PositionTracker.empty]
  | cons p rest ih =>
      have hcount : (p :: rest).length + m = (rest.length + m) + 1 := by
        simp [Nat.succ_add, Nat.add_comm]
      rw [hcount, drain_succ]
      have hnext : PositionTracker.next ⟨p :: rest, Option.none, false⟩ =
          (p, ⟨rest, Option.none, false⟩) := rfl
      rw [hnext]
      simp only
      rw [ih]
      simp

/-- C8: starting from the empty Recording tracker (no clause state, `incr`
unset), after `record i1, ..., record ik` — one push per enclosing statement
at suspension — successive calls to `next` first return the positions with
indices `ik, ..., i1` (each with no clause state) in that reverse order, and
every further call returns the default position (index 0, no clause state)
(src/crates/monty/src/position.rs lines 69-113). -/
theorem tracker_record_pops_in_reverse (idxs : List Nat) (extra : Nat) :
    (PositionTracker.empty.recordAll idxs).drain (idxs.length + extra) =
      ((idxs.reverse.map fun i => ⟨i, Option.none⟩) ++
         List.replicate extra Position.defaultPos,
       PositionTracker.empty) := by
  rw [show PositionTracker.empty = ⟨[], Option.none, false⟩ from rfl,
    recordAll_empty_state]
  have hlen : idxs.length = (idxs.reverse.map fun i =>
      (⟨i, Option.none⟩ : Position)).length := by simp
  rw [List.append_nil, hlen, drain_full]
  rfl

end MontyCrate

namespace MontyCrate

/-- A heap slot of the monty crate's arena, reduced to what the bug-1
reproduction observes: its refcount plus the ids of the `Value::Ref` children
it holds. -/
structure RcObject where
  refcount : Nat
  children : List Nat
deriving DecidableEq

/-- The monty crate's heap together with its resource tracker, reduced to
what the bug-1 reproduction observes: arena slots with refcounts, the bytes
charged so far, and the `max_memory` limit
(`ResourceLimits::new().max_memory(..)` in
src/crates/monty/tests/bug_reproductions.rs). -/
structure RcHeap where
  objects : List (Option RcObject)
  mem_used : Nat
  max_mem : Nat
deriving DecidableEq

/-- `Heap::inc_ref` of the monty crate on this reduced heap. -/
def RcHeap.inc_ref (h : RcHeap) (id : Nat) : RcHeap :=
  match h.objects[id]? with
  | some (some o) =>
      { h with objects := h.objects.set id (some { o with refcount := o.refcount + 1 }) }
  | _ => h

/-- The ids of the `Value::Ref` items of a sequence. -/
def refIds (items : List Value) : List Nat :=
  items.filterMap fun v => match v with | .ref id => some id | _ => Option.none

/-- Sum of all heap refcounts, the leak measure of spec section 8
(`sum of heap refcounts == baseline` after resource exhaustion). -/
def sumRefcounts (h : RcHeap) : Nat :=
  (h.objects.map fun slot => match slot with | some o => o.refcount | _ => 0).sum

/-- `Heap::mult_sequence` for list/tuple repetition.  The function body
(monty-crate heap.rs lines 1403-1424) is not under src/; it is modelled from
the repository's own step-by-step description in
src/crates/monty/tests/bug_reproductions.rs (bug 1): (1) the refcount of
every contained `Ref` is incremented once per copy; (2) the temporary items
vector is forgotten (`std::mem::forget`) so there is no cleanup path; (3)
`allocate` charges the resource tracker for the result's estimated size and
fails with MemoryError when the limit is exceeded — without undoing the
increments of step (1). -/
def mult_sequence (h : RcHeap) (items : List Value) (count : Nat) :
    RcHeap × Except PyErr Nat :=
  let new_children := (List.replicate count (refIds items)).flatten
  let h1 := new_children.foldl RcHeap.inc_ref h
  let size_estimate := 8 * (items.length * count) + 16
  if h1.mem_used + size_estimate > h1.max_mem then
    (h1, .error .memoryError)
  else
    ({ h1 with
        objects := h1.objects ++ [some ⟨1, new_children⟩],
        mem_used := h1.mem_used + size_estimate },
     .ok h1.objects.length)

/-- The heap state after `x = ['hello world']`: slot 0 the string (refcount
1, held by the list), slot 1 the list (refcount 1, the variable binding)
containing `Ref 0`; some bytes already charged against `max_memory = 1000`. -/
def bug1Heap : RcHeap :=
  ⟨[some ⟨1, []⟩, some ⟨1, [0]⟩], 100, 1000⟩

theorem set_self_of_getElem? {α : Type} (l : List α) (i : Nat) (a : α)
    (h : l[i]? = some a) : l.set i a = l := by
  induction l generalizing i with
  | nil => exact Option.noConfusion h
  | cons x xs ih =>
      cases i with
      | zero =>
          simp only [List.getElem?_cons_zero, Option.some.injEq] at h
          simp [h]
      | succ n =>
          simp only [List.getElem?_cons_succ] at h
          simp [List.set, ih n h]

theorem flatten_replicate_singleton {α : Type} (n : Nat) (a : α) :
    (List.replicate n [a]).flatten = List.replicate n a := by
  induction n with
  | zero => rfl
  | succ k ih => simp [List.replicate_succ, ih]

theorem foldl_inc_ref_count (count : Nat) (h : RcHeap) (id : Nat) (o : RcObject)
    (hslot : h.objects[id]? = some (some o)) :
    (List.replicate count id).foldl RcHeap.inc_ref h =
      { h with objects := h.objects.set id (some ⟨o.refcount + count, o.children⟩) } := by
  induction count generalizing h o with
  | zero =>
      show h = _
      rw [Nat.add_zero]
      have : (⟨o.refcount, o.children⟩ : RcObject) = o := rfl
      rw [this, set_self_of_getElem? h.objects id (some o) hslot]
  | succ n ih =>
      rw [List.replicate_succ, List.foldl_cons]
      have hinc : h.inc_ref id =
          { h with objects := h.objects.set id (some ⟨o.refcount + 1, o.children⟩) } := by
        simp [RcHeap.inc_ref, hslot]
      have hlt : id < h.objects.length := MontySrc.getElem?_isLt hslot
      have hslot' : (h.objects.set id (some ⟨o.refcount + 1, o.children⟩))[id]? =
          some (some ⟨o.refcount + 1, o.children⟩) :=
        List.getElem?_set_self (by simpa using hlt)
      rw [hinc, ih _ _ hslot']
      have harith : o.refcount + 1 + n = o.refcount + (n + 1) := by omega
      simp only [List.set_set, harith]

/-- C1 is violated by the source (its own test bug1_refcount_leak_in_mult_sequence
documents the leak): `y = x * 10000` under `max_memory = 1000` fails with
MemoryError, and the string's refcount has been incremented once per copy
with no rollback — the heap refcount sum ends 10000 above the baseline
instead of returning to it. -/
theorem mult_sequence_leaks_refcounts :
    (mult_sequence bug1Heap [.ref 0] 10000).2 = .error .memoryError ∧
    sumRefcounts (mult_sequence bug1Heap [.ref 0] 10000).1 =
      sumRefcounts bug1Heap + 10000 := by
  have hrefs : refIds [Value.ref 0] = [0] := rfl
  have hfold := foldl_inc_ref_count 10000 bug1Heap 0 ⟨1, []⟩ rfl
  have hmult : mult_sequence bug1Heap [.ref 0] 10000 =
      (⟨[some ⟨10001, []⟩, some ⟨1, [0]⟩], 100, 1000⟩, .error .memoryError) := by
    simp only [mult_sequence, hrefs, flatten_replicate_singleton]
    rw [hfold]
    decide
  rw [hmult]
  exact ⟨rfl, rfl⟩

/-- Host-boundary outcome of a VM dispatch in the monty crate: a value, a
typed Python-level error, or a host-process abort (an unconditional Rust
`todo`-style crash). -/
inductive HostOutcome where
  | ok (v : Value)
  | err (e : PyErr)
  | aborted (msg : String)
deriving DecidableEq

/-- Outcome of compiling a statement in the monty crate. -/
inductive CompileResult where
  | compiledOk
  | err (msg : String)
  | aborted (msg : String)
deriving DecidableEq

/-- Binary opcodes relevant to bug 4a.  Modelled from
src/crates/monty/tests/bug_reproductions.rs: `@` is parsed and compiled to
`Opcode::BinaryMatMul` (compiler.rs line 2817, not under src/). -/
inductive BinOpcode where
  | binaryAdd
  | binaryMatMul
deriving DecidableEq

/-- The VM's binary-operator handler.  Modelled from
src/crates/monty/tests/bug_reproductions.rs (bug 4a): the `BinaryMatMul`
handler at vm/mod.rs line 814 is exactly
`todo!("BinaryMatMul not implemented")`, an unconditional host abort, for
every operand pair. -/
def vmBinaryDispatch : BinOpcode → Value → Value → HostOutcome
  | .binaryAdd, .int a, .int b => .ok (.int (a + b))
  | .binaryAdd, _, _ => .err (.typeError "unsupported operand type(s) for +")
  | .binaryMatMul, _, _ => .aborted "BinaryMatMul not implemented"

/-- Augmented-assignment operators relevant to bug 4b. -/
inductive AugOp where
  | addAssign
  | matMultAssign
deriving DecidableEq

/-- Compilation of augmented assignment.  Modelled from
src/crates/monty/tests/bug_reproductions.rs (bug 4b): `@=` maps to
`Operator::MatMult` (compiler.rs line 2845) which hits
`todo!("InplaceMatMul not yet defined")` during compilation, aborting the
host before any program runs. -/
def compileAugAssign : AugOp → CompileResult
  | .addAssign => .compiledOk
  | .matMultAssign => .aborted "InplaceMatMul not yet defined"

/-- Parsing of a `del` statement.  Modelled from
src/crates/monty/tests/bug_reproductions.rs (bug 4c): the parser rejects
every `del` with a proper error, so the VM's panicking `DeleteSubscr`
handler is unreachable from source code. -/
def parseDelStatement (_target : String) : CompileResult :=
  .err "del not implemented"

/-- C3 is violated by the source (its own should-panic tests bug4a/bug4b
document the aborts): `1 @ 2` reaches the VM's `todo` handler and aborts
the host instead of raising TypeError, and compiling `x @= 2` aborts the
host instead of returning a compile error; only `del x[k]` is rejected with
a proper parse-time error. -/
theorem matmul_imatmul_abort_host :
    vmBinaryDispatch .binaryMatMul (.int 1) (.int 2) =
      .aborted "BinaryMatMul not implemented" ∧
    compileAugAssign .matMultAssign = .aborted "InplaceMatMul not yet defined" ∧
    parseDelStatement "x[0]" = .err "del not implemented" :=
  ⟨rfl, rfl, rfl⟩

end MontyCrate

namespace MontyCrate

/-- Errors of the snapshot codec, from the spec's internal error kinds
(section 7, `CorruptSnapshot` refined to the refusal causes of sections 4.7
and 6) and the `Err` outcomes asserted by the bug-5 tests. -/
inductive CodecError where
  | truncated
  | badMagic
  | badVersion
  | invalidHeapId
deriving DecidableEq

/-- A loaded, paused run.  Modelled from the spec: the snapshot codec
(`RunProgress::dump`/`load`) is not under src/ (only its bug-5 tests are).
Sections 4.7 and 6: the payload carries the heap extent and the state's
referenced heap ids (heap contents, frame stack, namespace and position
sections are opaque to the safety claim and reduced to those ids). -/
structure LoadedProgress where
  heap_len : Nat
  pending_refs : List Nat
deriving DecidableEq

/-- `RunProgress::load`.  Modelled from the spec (sections 4.7 and 6): the
stream is a magic header and version — unknown magic or version MUST be
refused — followed by the heap extent, a section length, and the referenced
ids; truncated or overlong input is refused, and "every ID referenced by the
loaded state is validated to lie within the loaded heap extent"
("deserialization does not trust indices"). -/
def load : List Nat → Except CodecError LoadedProgress
  | m0 :: m1 :: ver :: heap_len :: nrefs :: refs =>
      if m0 = 77 ∧ m1 = 84 then
        if ver = 1 then
          if refs.length = nrefs then
            if refs.all fun id => id < heap_len then
              .ok ⟨heap_len, refs⟩
            else .error .invalidHeapId
          else .error .truncated
        else .error .badVersion
      else .error .badMagic
  | _ => .error .truncated

/-- Outcome of resuming a loaded progress at the host boundary: normal
completion, a graceful error, or a host-process abort. -/
inductive ResumeOutcome where
  | completed
  | errOut (e : CodecError)
  | aborted
deriving DecidableEq

/-- Resume after `load`.  Modelled from the spec (section 4.7): resumption
walks the pending state's heap references; each dereference is an arena
access that would abort the host on an id outside the heap extent (the
`expect()`-style access the bug-5 test header describes), so graceful
failure relies on `load` having validated every id. -/
def resumeWalk (heap_len : Nat) : List Nat → ResumeOutcome
  | [] => .completed
  | id :: rest =>
      if id < heap_len then resumeWalk heap_len rest else .aborted

/-- `load` followed by `resume` on success: the full host-visible pipeline of
spec scenario S8 and testable property 6. -/
def loadThenResume (b : List Nat) : ResumeOutcome :=
  match load b with
  | .error e => .errOut e
  | .ok p => resumeWalk p.heap_len p.pending_refs

theorem load_validates_ids (b : List Nat) (p : LoadedProgress)
    (hload : load b = .ok p) :
    p.pending_refs.all (fun id => decide (id < p.heap_len)) = true := by
  rcases b with _ | ⟨m0, b⟩
  · exact Except.noConfusion hload
  rcases b with _ | ⟨m1, b⟩
  · exact Except.noConfusion hload
  rcases b with _ | ⟨ver, b⟩
  · exact Except.noConfusion hload
  rcases b with _ | ⟨heap_len, b⟩
  · exact Except.noConfusion hload
  rcases b with _ | ⟨nrefs, refs⟩
  · exact Except.noConfusion hload
  simp only [load] at hload
  split_ifs at hload with h1 h2 h3 h4
  cases hload
  exact h4

theorem resumeWalk_valid (heap_len : Nat) (refs : List Nat)
    (hall : refs.all (fun id => decide (id < heap_len)) = true) :
    resumeWalk heap_len refs ≠ .aborted := by
  induction refs with
  | nil => exact fun hc => ResumeOutcome.noConfusion hc
  | cons id rest ih =>
      rw [List.all_cons, Bool.and_eq_true, decide_eq_true_eq] at hall
      show ¬ (if id < heap_len then resumeWalk heap_len rest else .aborted) = .aborted
      rw [if_pos hall.1]
      exact ih hall.2

/-- Whether a resume outcome is a host-process abort. -/
def ResumeOutcome.isAborted : ResumeOutcome → Bool
  | .aborted => true
  | .completed => false
  | .errOut _ => false

/-- C2: for every byte sequence — truncated, corrupted, or arbitrary garbage
— `load` either returns an error, or returns a progress whose subsequent
resume runs entirely within the validated heap extent; on no input does the
load-then-resume pipeline abort the host. -/
theorem load_resume_never_aborts (b : List Nat) :
    (loadThenResume b).isAborted = false := by
  have hne : loadThenResume b ≠ .aborted := by
    unfold loadThenResume
    cases hload : load b with
    | error e => exact fun hc => ResumeOutcome.noConfusion hc
    | ok p =>
        exact resumeWalk_valid p.heap_len p.pending_refs (load_validates_ids b p hload)
  cases hout : loadThenResume b with
  | completed => rfl
  | errOut e => rfl
  | aborted => exact absurd hout hne

end MontyCrate
